import Mathlib

/-!
# FileReader: the sandboxed source-file resolver

A shallow embedding of `libsolidity/interface/FileReader.cpp`.

* The registry (`m_sourceCodes`, `m_pathMappings`) and the configuration
  (`m_basePath`, `m_allowedDirectories`) are the fields of `FileReader`; every
  member function becomes a function on that state.
* The file system and the helpers of other translation units that `readFile`
  calls (`weakly_canonical`, `exists`, `is_regular_file`, `readFileAsString`,
  `ReadCallback::kindString`) are the fields of `Environment`.
* A C++ exception is an `Except.error`; the `try`/`catch` of `readFile` is the
  match on the outcome of `readFileBody`.
-/

namespace solidity

/-! ## Strings -/

/-- The search loop of `std::string::find`: `pos` is the index of the head of the
text still to be searched. `none` stands for `npos`. -/
def stringFindFrom (needle : List Char) : List Char → Nat → Option Nat
  | [], pos => if needle.isEmpty then some pos else none
  | c :: cs, pos =>
    if needle.isPrefixOf (c :: cs) then some pos else stringFindFrom needle cs (pos + 1)

/-- The call `s.find(needle)`: index of the first occurrence of `needle` in `s`. -/
def stringFind (s needle : String) : Option Nat :=
  stringFindFrom needle.toList s.toList 0

/-- The call `s.erase(pos, n)`: removes up to `n` characters starting at `pos`. -/
def stringErase (s : String) (pos n : Nat) : String :=
  String.mk (s.toList.take pos ++ (s.toList.drop pos).drop n)

/-! ## boost::filesystem::path (POSIX, generic format) -/

/-- A `boost::filesystem::path`: a wrapper around its pathname string. -/
structure Path where
  pathname : String
  deriving DecidableEq, Repr

namespace Path

/-- On POSIX the generic format is the stored pathname. -/
def generic_string (p : Path) : String := p.pathname

/-- On POSIX the native format is the stored pathname. -/
def string (p : Path) : String := p.pathname

/-- The operator `p / q` (`path::operator/=` of Boost.Filesystem version 3): an
empty `q` changes nothing; a separator is added unless `q` starts with one or `p`
is empty or ends with one. -/
def append (p q : Path) : Path :=
  match q.pathname.toList with
  | [] => p
  | c :: _ =>
    if c = '/' then ⟨p.pathname ++ q.pathname⟩
    else if p.pathname.toList = [] ∨ p.pathname.toList.getLast? = some '/' then
      ⟨p.pathname ++ q.pathname⟩
    else ⟨p.pathname ++ "/" ++ q.pathname⟩

instance : HDiv Path Path Path := ⟨append⟩

/-- The file names that path iteration (Boost.Filesystem version 3) yields after
the root: runs of separators are skipped, and separators that end the pathname
yield the element `.`.
`acc` holds the characters of the current name, last one first. -/
def filenames : List Char → List Char → List String
  | acc, [] => if acc.isEmpty then [] else [String.mk acc.reverse]
  | acc, c :: cs =>
    if c = '/' then
      if acc.isEmpty then filenames [] cs
      else String.mk acc.reverse :: (if cs.all (fun d => d = '/') then ["."] else filenames [] cs)
    else filenames (c :: acc) cs

/-- The elements of `[p.begin(), p.end())`: the root name (`//host`) if any, the
root directory `/` if any, then the file names. -/
def elementsOf : List Char → List String
  | [] => []
  | c :: cs =>
    if c ≠ '/' then filenames [] (c :: cs)
    else match cs with
      | [] => ["/"]
      | d :: ds =>
        if d ≠ '/' then "/" :: filenames [] (d :: ds)
        else match ds with
          | [] => ["//"]
          | e :: es =>
            if e = '/' then "/" :: filenames [] es
            else
              String.mk ('/' :: '/' :: (e :: es).takeWhile (fun x => x ≠ '/')) ::
                (match (e :: es).dropWhile (fun x => x ≠ '/') with
                 | [] => []
                 | _ :: rest => "/" :: filenames [] rest)

/-- The range `[p.begin(), p.end())` as a list. -/
def elements (p : Path) : List String := elementsOf p.pathname.toList

/-- The value of `std::distance(p.begin(), p.end())`. -/
def distance (p : Path) : Nat := p.elements.length

end Path

/-- The call `std::equal(first1, last1, first2)`: every element of the first range
equals the element at the same position of the second range. The second range is
read only as far as the first one reaches; `readFile` calls it only when the
second range is at least as long. -/
def stdEqual : List String → List String → Bool
  | [], _ => true
  | _ :: _, [] => false
  | a :: as, b :: bs => if a = b then stdEqual as bs else false

/-! ## The registry containers -/

/-- Modelled from the spec: the container types of `m_sourceCodes` (`StringMap`)
and `m_pathMappings` are declared in `FileReader.h`, which is not among the
sources. The spec describes them as mappings keyed by a source-unit ID that is
"unique within the registry", whose IDs are listed "in insertion order", and
whose entries are "overwritten (not merged) when the same ID is set again". -/
structure Map (β : Type) where
  entries : List (String × β)
  nodup : (entries.map Prod.fst).Nodup

namespace Map

variable {β : Type}

/-- The empty container. -/
def empty : Map β := ⟨[], List.nodup_nil⟩

/-- The keys in iteration order. -/
def keys (m : Map β) : List String := m.entries.map Prod.fst

/-- Lookup of a key in a list of entries. -/
def findEntries (k : String) : List (String × β) → Option β
  | [] => none
  | e :: rest => if e.1 = k then some e.2 else findEntries k rest

/-- Lookup of a key (`find` followed by reading `->second`). -/
def find? (m : Map β) (k : String) : Option β := findEntries k m.entries

/-- The statement `m[k] = v` on the entries: the entry of `k` is overwritten where
it stands, a new key is added after the existing ones. -/
def assignEntries (k : String) (v : β) : List (String × β) → List (String × β)
  | [] => [(k, v)]
  | e :: rest => if e.1 = k then (k, v) :: rest else e :: assignEntries k v rest

/-- The statement `m[k] = v`. -/
def assign (m : Map β) (k : String) (v : β) : Map β :=
  ⟨assignEntries k v m.entries, by
    have hkeys : ∀ l : List (String × β), (assignEntries k v l).map Prod.fst =
        if k ∈ l.map Prod.fst then l.map Prod.fst else l.map Prod.fst ++ [k] := by
      intro l
      induction l with
      | nil => simp [assignEntries]
      | cons e rest ih =>
        by_cases h : e.1 = k
        · simp [assignEntries, h]
        · have h' : ¬ k = e.1 := fun hk => h hk.symm
          simp only [assignEntries, h, if_false, List.map_cons, ih, List.mem_cons, h', false_or]
          split <;> simp
    rw [hkeys]
    split
    · exact m.nodup
    · next hk =>
      rw [List.nodup_append]
      refine ⟨m.nodup, List.nodup_singleton k, ?_⟩
      intro a ha hb
      simp only [List.mem_singleton] at hb
      exact hk (hb ▸ ha)⟩

/-- The call `m.clear()`. -/
def clear (_m : Map β) : Map β := empty

end Map

/-! ## Exceptions, the environment and the state -/

/-- An exception in flight inside the `try` block of `readFile`, reduced to what
the two handlers look at: whether its class derives from `util::Exception` (the
first handler) and its `boost::diagnostic_information`. -/
structure Exception where
  isUtilException : Bool
  diagnostic_information : String
  deriving DecidableEq, Repr

/-- The value of `ReadCallback::Result`. -/
structure Result where
  success : Bool
  responseOrErrorMessage : String
  deriving DecidableEq, Repr

/-- What `readFile` takes from outside `FileReader.cpp`: the kind tag, the
exception class of the kind check (declared in `liblangutil/Exceptions.h`), the
file-system queries of boost and `readFileAsString` of `libsolutil`. Each query
either returns or throws. -/
structure Environment where
  kindString_ReadFile : String
  InternalCompilerError : String → Exception
  weakly_canonical : Path → Except Exception Path
  filesystem_exists : Path → Except Exception Bool
  is_regular_file : Path → Except Exception Bool
  readFileAsString : String → Except Exception String

/-- The data members of `FileReader`. -/
structure FileReader where
  m_basePath : Path
  m_allowedDirectories : List Path
  m_sourceCodes : Map String
  m_pathMappings : Map Path

/-! ## The registry operations -/

/-- The member `sourceUnitIDs`: the loop appends the key of every entry. -/
def sourceUnitIDs (fr : FileReader) : List String :=
  fr.m_sourceCodes.entries.foldl (fun names source => names ++ [source.1]) []

/-- The overload `setSource(boost::filesystem::path, std::string)`. -/
def setSource_fspath (fr : FileReader) (_fspath : Path) (_source : String) : FileReader :=
  let sourceUnitID := _fspath.generic_string
  let fr1 := { fr with m_pathMappings := fr.m_pathMappings.assign sourceUnitID ⟨sourceUnitID⟩ }
  { fr1 with m_sourceCodes := fr1.m_sourceCodes.assign sourceUnitID _source }

/-- The overload `setSource(std::string, std::string)`. -/
def setSource (fr : FileReader) (_sourceUnitID : String) (_source : String) : FileReader :=
  { fr with m_sourceCodes := fr.m_sourceCodes.assign _sourceUnitID _source }

/-- The overload `setSource(string, optional<boost::filesystem::path>, string)`. -/
def setSource_optional (fr : FileReader) (_sourceUnitID : String) (_fspath : Option Path)
    (_source : String) : FileReader :=
  let fr1 :=
    match _fspath with
    | some value => { fr with m_pathMappings := fr.m_pathMappings.assign _sourceUnitID value }
    | none => fr
  { fr1 with m_sourceCodes := fr1.m_sourceCodes.assign _sourceUnitID _source }

/-- The member `setSources`. -/
def setSources (fr : FileReader) (_sources : Map String) : FileReader :=
  let fr1 := { fr with m_pathMappings := fr.m_pathMappings.clear }
  { fr1 with m_sourceCodes := _sources }

/-! ## readFile -/

/-- The first statements of the `try` block after the kind check: a leading
`file://` is erased. -/
def validPath (_path : String) : String :=
  if stringFind _path "file://" = some 0 then stringErase _path 0 7 else _path

/-- The loop over `m_allowedDirectories` that computes `isAllowed`; it stops at
the first directory whose elements start the canonical path. -/
def isAllowed : List Path → Path → Bool
  | [], _ => false
  | allowedDir :: rest, canonicalPath =>
    if allowedDir.distance ≤ canonicalPath.distance ∧
        stdEqual allowedDir.elements canonicalPath.elements = true then true
    else isAllowed rest canonicalPath

/-- The `try` block of `readFile`: `Except.error` is a thrown exception, the
returned state is the registry when the block is left by `return`. -/
def readFileBody (env : Environment) (fr : FileReader) (_kind _path : String) :
    Except Exception (Result × FileReader) :=
  if _kind ≠ env.kindString_ReadFile then
    .error (env.InternalCompilerError ("ReadFile callback used as callback kind " ++ _kind))
  else
    let path := fr.m_basePath / (⟨validPath _path⟩ : Path)
    match env.weakly_canonical path with
    | .error e => .error e
    | .ok canonicalPath =>
      if ¬ isAllowed fr.m_allowedDirectories canonicalPath = true then
        .ok (⟨false, "File outside of allowed directories."⟩, fr)
      else match env.filesystem_exists canonicalPath with
        | .error e => .error e
        | .ok false => .ok (⟨false, "File not found."⟩, fr)
        | .ok true =>
          match env.is_regular_file canonicalPath with
          | .error e => .error e
          | .ok false => .ok (⟨false, "Not a valid file."⟩, fr)
          | .ok true =>
            match env.readFileAsString canonicalPath.string with
            | .error e => .error e
            | .ok contents =>
              let fr1 := { fr with
                m_sourceCodes := fr.m_sourceCodes.assign path.generic_string contents }
              let fr2 := { fr1 with m_pathMappings := fr1.m_pathMappings.assign _path path }
              .ok (⟨true, contents⟩, fr2)

/-- The member `readFile`: the `try` block with its two handlers. The outcome is
`Except.ok` when the call returns a `Result` and `Except.error` when an exception
leaves the call. -/
def readFile (env : Environment) (fr : FileReader) (_kind _path : String) :
    Except Exception (Result × FileReader) :=
  match readFileBody env fr _kind _path with
  | .ok r => .ok r
  | .error _exception =>
    if _exception.isUtilException then
      .ok (⟨false, "Exception in read callback: " ++ _exception.diagnostic_information⟩, fr)
    else
      .ok (⟨false, "Unknown exception in read callback."⟩, fr)

/-! ## A concrete file system

The directory tree `/project/src/a.sol`, `/project/src2/b.sol`, `/etc/passwd`
without symbolic links. -/

/-- Removal of `.` and `..` from the elements after the root; `stack` holds the
names kept so far, last one first. -/
def normalizeNames : List String → List String → List String
  | stack, [] => stack.reverse
  | stack, name :: rest =>
    if name = "." then normalizeNames stack rest
    else if name = ".." then normalizeNames stack.tail rest
    else normalizeNames (name :: stack) rest

/-- Without symbolic links the weakly canonical form of an absolute path is its
lexical normal form. -/
def exampleCanonical (p : Path) : Path :=
  ⟨"/" ++ "/".intercalate (normalizeNames [] p.elements.tail)⟩

/-- The regular files and their content. -/
def exampleFiles : List (String × String) :=
  [("/project/src/a.sol", "contract A {}"),
   ("/project/src2/b.sol", "contract B {}"),
   ("/etc/passwd", "root:x:0:0")]

/-- The directories. -/
def exampleDirectories : List String :=
  ["/", "/project", "/project/src", "/project/src2", "/etc"]

/-- The environment of the example tree; exceptions carry their comment as
diagnostic information. -/
def exampleEnvironment : Environment where
  kindString_ReadFile := "source"
  InternalCompilerError := fun comment => ⟨true, comment⟩
  weakly_canonical := fun p => .ok (exampleCanonical p)
  filesystem_exists := fun p =>
    .ok (decide (p.pathname ∈ exampleDirectories ∨ p.pathname ∈ exampleFiles.map Prod.fst))
  is_regular_file := fun p => .ok (decide (p.pathname ∈ exampleFiles.map Prod.fst))
  readFileAsString := fun name =>
    match Map.findEntries name exampleFiles with
    | some content => .ok content
    | none => .error ⟨true, "FileNotFound"⟩

/-- A reader with `BasePath = /project`, allow-list `{/project/src}` and an empty
registry. -/
def exampleReader : FileReader :=
  ⟨⟨"/project"⟩, [⟨"/project/src"⟩], Map.empty, Map.empty⟩

/-- A reader with an empty base path, allow-list `{/project/src}` and an empty
registry: requested paths are taken as they are. -/
def exampleRootReader : FileReader :=
  ⟨⟨""⟩, [⟨"/project/src"⟩], Map.empty, Map.empty⟩

/-! ## Calls of setSource, and the order of first insertion -/

/-- One call of `setSource`, in any of its three overloads. -/
inductive SetSourceCall where
  | fspath (_fspath : Path) (_source : String)
  | id (_sourceUnitID : String) (_source : String)
  | optional (_sourceUnitID : String) (_fspath : Option Path) (_source : String)

namespace SetSourceCall

/-- The call applied to a state. -/
def apply (fr : FileReader) : SetSourceCall → FileReader
  | .fspath p src => setSource_fspath fr p src
  | .id i src => setSource fr i src
  | .optional i p src => setSource_optional fr i p src

/-- The source-unit ID the call writes to. -/
def sourceUnitID : SetSourceCall → String
  | .fspath p _ => p.generic_string
  | .id i _ => i
  | .optional i _ _ => i

/-- The content the call passes. -/
def source : SetSourceCall → String
  | .fspath _ src => src
  | .id _ src => src
  | .optional _ _ src => src

end SetSourceCall

/-- The order of first insertion: an ID that is already listed keeps its place, a
new ID goes after the IDs listed so far. -/
def firstInsertionOrder (known : List String) (ids : List String) : List String :=
  ids.foldl (fun acc i => if i ∈ acc then acc else acc ++ [i]) known

/-- The key set of the path mapping lies within the key set of the content
mapping. -/
def pathKeysSubset (fr : FileReader) : Prop :=
  fr.m_pathMappings.keys ⊆ fr.m_sourceCodes.keys

/-- A reader with `BasePath = /project`, an empty allow-list and an empty
registry. -/
def exampleClosedReader : FileReader :=
  ⟨⟨"/project"⟩, [], Map.empty, Map.empty⟩

/-- The stripping as the specification words it: exactly the first 7 characters
are removed when the path begins with the literal `file://`, and any other path is
returned unchanged. -/
def stripScheme (path : String) : String :=
  if "file://".toList <+: path.toList then String.mk (path.toList.drop 7) else path

/-! ## The containment check -/

theorem stdEqual_iff_isPrefix (as bs : List String) : stdEqual as bs = true ↔ as <+: bs := by
  induction as generalizing bs with
  | nil => simp [stdEqual]
  | cons a as ih =>
    cases bs with
    | nil => simp [stdEqual]
    | cons b bs =>
      by_cases h : a = b
      · subst h
        simp [stdEqual, ih, List.cons_prefix_cons]
      · simp [stdEqual, h, List.cons_prefix_cons]

theorem isAllowed_iff (allowed : List Path) (c : Path) :
    isAllowed allowed c = true ↔ ∃ d ∈ allowed, d.elements <+: c.elements := by
  induction allowed with
  | nil => simp [isAllowed]
  | cons d rest ih =>
    by_cases h : d.elements <+: c.elements
    · have hlen : d.distance ≤ c.distance := h.length_le
      simp [isAllowed, hlen, (stdEqual_iff_isPrefix _ _).2 h, h]
    · have h' : ¬ stdEqual d.elements c.elements = true :=
        fun hs => h ((stdEqual_iff_isPrefix _ _).1 hs)
      simp [isAllowed, h', h, ih]

theorem readFile_of_not_isAllowed (env : Environment) (fr : FileReader) (_path : String)
    (c : Path)
    (hc : env.weakly_canonical (fr.m_basePath / (⟨validPath _path⟩ : Path)) = .ok c)
    (h : isAllowed fr.m_allowedDirectories c = false) :
    readFile env fr env.kindString_ReadFile _path =
      .ok (⟨false, "File outside of allowed directories."⟩, fr) := by
  simp [readFile, readFileBody, hc, h]

/-- C1: the containment check of `readFile` passes exactly when the elements of
some allowed directory are, one by one and in order, the first elements of the
canonical path; a canonical path that fails it is answered with
`(false, "File outside of allowed directories.")`; with the allow-list
`{/project/src}` this is the answer for `/project/src2` and everything below it. -/
theorem readFile_containment_is_componentwise (env : Environment) (fr : FileReader)
    (_path : String) (c : Path)
    (hc : env.weakly_canonical (fr.m_basePath / (⟨validPath _path⟩ : Path)) = .ok c) :
    (isAllowed fr.m_allowedDirectories c = true ↔
        ∃ d ∈ fr.m_allowedDirectories, d.elements <+: c.elements) ∧
    ((¬ ∃ d ∈ fr.m_allowedDirectories, d.elements <+: c.elements) →
        readFile env fr env.kindString_ReadFile _path =
          .ok (⟨false, "File outside of allowed directories."⟩, fr)) ∧
    (fr.m_allowedDirectories = [⟨"/project/src"⟩] → ["/", "project", "src2"] <+: c.elements →
        readFile env fr env.kindString_ReadFile _path =
          .ok (⟨false, "File outside of allowed directories."⟩, fr)) := by
  have key : (¬ ∃ d ∈ fr.m_allowedDirectories, d.elements <+: c.elements) →
      readFile env fr env.kindString_ReadFile _path =
        .ok (⟨false, "File outside of allowed directories."⟩, fr) := by
    intro hn
    apply readFile_of_not_isAllowed env fr _path c hc
    rw [← Bool.not_eq_true, isAllowed_iff]
    exact hn
  refine ⟨isAllowed_iff _ _, key, ?_⟩
  intro hdirs hpre
  apply key
  rw [hdirs]
  rintro ⟨d, hd, hdc⟩
  simp only [List.mem_singleton] at hd
  subst hd
  have hel : Path.elements ⟨"/project/src"⟩ = ["/", "project", "src"] := by decide
  rw [hel] at hdc
  obtain ⟨t, ht⟩ := hpre
  obtain ⟨u, hu⟩ := hdc
  rw [← ht] at hu
  simp at hu

/-- C1, at the example tree: `src2/b.sol` resolves to `/project/src2/b.sol`, which
exists, and is refused. -/
theorem readFile_containment_is_componentwise_witness :
    exampleEnvironment.weakly_canonical
        (exampleReader.m_basePath / (⟨validPath "src2/b.sol"⟩ : Path)) =
      .ok ⟨"/project/src2/b.sol"⟩ ∧
    exampleEnvironment.filesystem_exists ⟨"/project/src2/b.sol"⟩ = .ok true ∧
    readFile exampleEnvironment exampleReader "source" "src2/b.sol" =
      .ok (⟨false, "File outside of allowed directories."⟩, exampleReader) :=
  ⟨rfl, rfl,
    (readFile_containment_is_componentwise exampleEnvironment exampleReader "src2/b.sol"
      ⟨"/project/src2/b.sol"⟩ rfl).2.2 rfl (by decide)⟩

/-! ## The kind check and the handlers -/

/-- The call `readFile` always returns a `Result`: no exception leaves it. -/
theorem readFile_returns (env : Environment) (fr : FileReader) (_kind _path : String) :
    ∃ r, readFile env fr _kind _path = .ok r := by
  unfold readFile
  split
  · exact ⟨_, rfl⟩
  · split <;> exact ⟨_, rfl⟩

/-- C2, as stated, fails: for the kind `bogus`, which is not the recognized kind,
no exception reaches the caller; the call returns the soft result
`(false, "Exception in read callback: ...")`. -/
theorem readFile_wrong_kind_counterexample :
    "bogus" ≠ exampleEnvironment.kindString_ReadFile ∧
    (¬ ∃ e, readFile exampleEnvironment exampleReader "bogus" "src/a.sol" = .error e) ∧
    readFile exampleEnvironment exampleReader "bogus" "src/a.sol" =
      .ok (⟨false, "Exception in read callback: ReadFile callback used as callback kind bogus"⟩,
        exampleReader) := by
  refine ⟨by decide, ?_, rfl⟩
  rintro ⟨e, he⟩
  have h : readFile exampleEnvironment exampleReader "bogus" "src/a.sol" =
      .ok (⟨false, "Exception in read callback: ReadFile callback used as callback kind bogus"⟩,
        exampleReader) := rfl
  rw [h] at he
  cases he

/-- C2, amended: for every kind other than the recognized one and every path, the
exception of the kind check is caught by the handlers of `readFile`, and the call
returns a result with `success = false` and leaves the state as it was. The message
is `Exception in read callback: ` followed by the diagnostic information of the
exception when its class derives from `util::Exception`, and
`Unknown exception in read callback.` otherwise. -/
theorem readFile_wrong_kind_is_soft (env : Environment) (fr : FileReader)
    (_kind _path : String) (hkind : _kind ≠ env.kindString_ReadFile) :
    readFile env fr _kind _path =
      .ok (⟨false,
          if (env.InternalCompilerError
              ("ReadFile callback used as callback kind " ++ _kind)).isUtilException = true then
            "Exception in read callback: " ++
              (env.InternalCompilerError
                ("ReadFile callback used as callback kind " ++ _kind)).diagnostic_information
          else "Unknown exception in read callback."⟩, fr) := by
  simp only [readFile, readFileBody, ne_eq, hkind, not_false_eq_true, if_true]
  split <;> simp_all

/-- C2, amended, at the kind `bogus`. -/
theorem readFile_wrong_kind_is_soft_witness :
    readFile exampleEnvironment exampleReader "bogus" "src/a.sol" =
      .ok (⟨false,
          if (exampleEnvironment.InternalCompilerError
              ("ReadFile callback used as callback kind " ++ "bogus")).isUtilException = true then
            "Exception in read callback: " ++
              (exampleEnvironment.InternalCompilerError
                ("ReadFile callback used as callback kind " ++ "bogus")).diagnostic_information
          else "Unknown exception in read callback."⟩, exampleReader) :=
  readFile_wrong_kind_is_soft exampleEnvironment exampleReader "bogus" "src/a.sol" (by decide)

/-! ## The outcomes of readFile -/

/-- The successful path of `readFile`: all checks pass and the read returns. -/
theorem readFile_of_checks (env : Environment) (fr : FileReader) (_path : String)
    (c : Path) (contents : String)
    (hc : env.weakly_canonical (fr.m_basePath / (⟨validPath _path⟩ : Path)) = .ok c)
    (ha : isAllowed fr.m_allowedDirectories c = true)
    (he : env.filesystem_exists c = .ok true)
    (hr : env.is_regular_file c = .ok true)
    (hs : env.readFileAsString c.string = .ok contents) :
    readFile env fr env.kindString_ReadFile _path =
      .ok (⟨true, contents⟩,
        { fr with
          m_sourceCodes := fr.m_sourceCodes.assign
            (fr.m_basePath / (⟨validPath _path⟩ : Path)).generic_string contents
          m_pathMappings := fr.m_pathMappings.assign _path
            (fr.m_basePath / (⟨validPath _path⟩ : Path)) }) := by
  simp [readFile, readFileBody, hc, ha, he, hr, hs]

/-- Every outcome of `readFile` is either a failure that leaves the state as it
was, or the successful path. -/
theorem readFile_cases (env : Environment) (fr : FileReader) (_kind _path : String)
    (r : Result) (fr' : FileReader) (h : readFile env fr _kind _path = .ok (r, fr')) :
    (r.success = false ∧ fr' = fr) ∨
    (_kind = env.kindString_ReadFile ∧ ∃ c contents,
      env.weakly_canonical (fr.m_basePath / (⟨validPath _path⟩ : Path)) = .ok c ∧
      isAllowed fr.m_allowedDirectories c = true ∧
      env.filesystem_exists c = .ok true ∧
      env.is_regular_file c = .ok true ∧
      env.readFileAsString c.string = .ok contents ∧
      r = ⟨true, contents⟩ ∧
      fr' = { fr with
          m_sourceCodes := fr.m_sourceCodes.assign
            (fr.m_basePath / (⟨validPath _path⟩ : Path)).generic_string contents
          m_pathMappings := fr.m_pathMappings.assign _path
            (fr.m_basePath / (⟨validPath _path⟩ : Path)) }) := by
  have soft : ∀ (msg : String) (e : Exception),
      ((if e.isUtilException = true then
          (.ok (⟨false, msg ++ e.diagnostic_information⟩, fr) :
            Except Exception (Result × FileReader))
        else .ok (⟨false, "Unknown exception in read callback."⟩, fr)) = .ok (r, fr')) →
      r.success = false ∧ fr' = fr := by
    intro msg e he
    split at he <;>
    · injection he with he
      injection he with h1 h2
      subst h1 h2
      exact ⟨rfl, rfl⟩
  by_cases hk : _kind = env.kindString_ReadFile
  swap
  · left
    simp only [readFile, readFileBody, ne_eq, hk, not_false_eq_true, if_true] at h
    exact soft _ _ h
  cases hc : env.weakly_canonical (fr.m_basePath / (⟨validPath _path⟩ : Path)) with
  | error e =>
    left
    simp only [readFile, readFileBody, ne_eq, hk, not_true_eq_false, if_false, hc] at h
    exact soft _ _ h
  | ok c =>
    by_cases ha : isAllowed fr.m_allowedDirectories c = true
    swap
    · left
      simp [readFile, readFileBody, hk, hc, ha] at h
      obtain ⟨h1, h2⟩ := h
      subst h1 h2
      exact ⟨rfl, rfl⟩
    cases he : env.filesystem_exists c with
    | error e =>
      left
      simp only [readFile, readFileBody, ne_eq, hk, not_true_eq_false, if_false, hc, ha, he] at h
      exact soft _ _ h
    | ok b =>
      cases b with
      | false =>
        left
        simp [readFile, readFileBody, hk, hc, ha, he] at h
        obtain ⟨h1, h2⟩ := h
        subst h1 h2
        exact ⟨rfl, rfl⟩
      | true =>
        cases hr : env.is_regular_file c with
        | error e =>
          left
          simp only [readFile, readFileBody, ne_eq, hk, not_true_eq_false, if_false, hc, ha, he,
            hr] at h
          exact soft _ _ h
        | ok b =>
          cases b with
          | false =>
            left
            simp [readFile, readFileBody, hk, hc, ha, he, hr] at h
            obtain ⟨h1, h2⟩ := h
            subst h1 h2
            exact ⟨rfl, rfl⟩
          | true =>
            cases hs : env.readFileAsString c.string with
            | error e =>
              left
              simp only [readFile, readFileBody, ne_eq, hk, not_true_eq_false, if_false, hc, ha,
                he, hr, hs] at h
              exact soft _ _ h
            | ok contents =>
              right
              simp [readFile, readFileBody, hk, hc, ha, he, hr, hs] at h
              obtain ⟨h1, h2⟩ := h
              subst h1 h2
              exact ⟨hk, c, contents, rfl, ha, he, hr, hs, rfl, rfl⟩

/-! ## Lookup after assignment -/

theorem Map.keys_assignEntries {β : Type} (k : String) (v : β) (l : List (String × β)) :
    (Map.assignEntries k v l).map Prod.fst =
      if k ∈ l.map Prod.fst then l.map Prod.fst else l.map Prod.fst ++ [k] := by
  induction l with
  | nil => simp [Map.assignEntries]
  | cons e rest ih =>
    by_cases h : e.1 = k
    · simp [Map.assignEntries, h]
    · have h' : ¬ k = e.1 := fun hk => h hk.symm
      simp only [Map.assignEntries, h, if_false, List.map_cons, ih, List.mem_cons, h', false_or]
      split <;> simp

theorem Map.findEntries_assignEntries_same {β : Type} (k : String) (v : β)
    (l : List (String × β)) : Map.findEntries k (Map.assignEntries k v l) = some v := by
  induction l with
  | nil => simp [Map.assignEntries, Map.findEntries]
  | cons e rest ih =>
    by_cases h : e.1 = k
    · simp [Map.assignEntries, Map.findEntries, h]
    · simp [Map.assignEntries, Map.findEntries, h, ih]

theorem Map.findEntries_assignEntries_other {β : Type} (k j : String) (v : β)
    (l : List (String × β)) (hj : j ≠ k) :
    Map.findEntries j (Map.assignEntries k v l) = Map.findEntries j l := by
  induction l with
  | nil => simp [Map.assignEntries, Map.findEntries, hj.symm]
  | cons e rest ih =>
    by_cases h : e.1 = k
    · have h' : ¬ e.1 = j := fun he => hj (he.symm.trans h)
      simp [Map.assignEntries, Map.findEntries, h, h', hj.symm]
    · simp [Map.assignEntries, Map.findEntries, h, ih]

theorem Map.find?_assign_same {β : Type} (m : Map β) (k : String) (v : β) :
    (m.assign k v).find? k = some v :=
  Map.findEntries_assignEntries_same k v m.entries

theorem Map.find?_assign_other {β : Type} (m : Map β) (k j : String) (v : β) (hj : j ≠ k) :
    (m.assign k v).find? j = m.find? j :=
  Map.findEntries_assignEntries_other k j v m.entries hj

theorem Map.keys_assign {β : Type} (m : Map β) (k : String) (v : β) :
    (m.assign k v).keys = if k ∈ m.keys then m.keys else m.keys ++ [k] :=
  Map.keys_assignEntries k v m.entries

theorem Map.mem_keys_assign {β : Type} (m : Map β) (k j : String) (v : β) :
    j ∈ (m.assign k v).keys ↔ j = k ∨ j ∈ m.keys := by
  rw [Map.keys_assign]
  split
  · next hk =>
    constructor
    · exact Or.inr
    · rintro (rfl | h)
      · exact hk
      · exact h
  · simp [or_comm]

/-! ## What a successful read commits -/

/-- C3, as stated, fails: the read of `src/../src/a.sol` succeeds, its canonical
path is `/project/src/a.sol`, and the content mapping has no entry under that
string: the entry is keyed by the joined path `/project/src/../src/a.sol`. -/
theorem readFile_commit_counterexample :
    exampleEnvironment.weakly_canonical
        (exampleReader.m_basePath / (⟨validPath "src/../src/a.sol"⟩ : Path)) =
      .ok ⟨"/project/src/a.sol"⟩ ∧
    ∃ fr', readFile exampleEnvironment exampleReader "source" "src/../src/a.sol" =
        .ok (⟨true, "contract A {}"⟩, fr') ∧
      fr'.m_sourceCodes.find? "/project/src/a.sol" = none ∧
      fr'.m_sourceCodes.keys = ["/project/src/../src/a.sol"] :=
  ⟨rfl, _, rfl, rfl, rfl⟩

/-- C3, amended: after every successful `readFile(kind, path)` the content mapping
holds the content read under the generic string of the base path joined with the
stripped path, as joined and before canonicalization, and the path mapping holds
that joined path under the requested path string exactly as passed in. -/
theorem readFile_commit (env : Environment) (fr : FileReader) (_kind _path : String)
    (r : Result) (fr' : FileReader) (h : readFile env fr _kind _path = .ok (r, fr'))
    (hs : r.success = true) :
    fr'.m_sourceCodes.find? (fr.m_basePath / (⟨validPath _path⟩ : Path)).generic_string =
      some r.responseOrErrorMessage ∧
    fr'.m_pathMappings.find? _path = some (fr.m_basePath / (⟨validPath _path⟩ : Path)) := by
  rcases readFile_cases env fr _kind _path r fr' h with ⟨hf, _⟩ | ⟨_, c, contents, _, _, _, _, _, hr, hfr⟩
  · rw [hf] at hs
    cases hs
  · subst hr hfr
    exact ⟨Map.find?_assign_same _ _ _, Map.find?_assign_same _ _ _⟩

/-- C3, amended, at the read of `src/../src/a.sol`. -/
theorem readFile_commit_witness :
    ∃ fr', readFile exampleEnvironment exampleReader "source" "src/../src/a.sol" =
        .ok (⟨true, "contract A {}"⟩, fr') ∧
      fr'.m_sourceCodes.find? "/project/src/../src/a.sol" = some "contract A {}" ∧
      fr'.m_pathMappings.find? "src/../src/a.sol" = some ⟨"/project/src/../src/a.sol"⟩ :=
  ⟨_, rfl, readFile_commit exampleEnvironment exampleReader "source" "src/../src/a.sol"
    ⟨true, "contract A {}"⟩ _ rfl rfl⟩

/-! ## Failure leaves the registry alone -/

theorem readFile_state_of_failure (env : Environment) (fr : FileReader)
    (_kind _path : String) (r : Result) (fr' : FileReader)
    (h : readFile env fr _kind _path = .ok (r, fr')) (hf : r.success = false) : fr' = fr := by
  rcases readFile_cases env fr _kind _path r fr' h with ⟨_, hfr⟩ | ⟨_, c, contents, _, _, _, _, _, hr, _⟩
  · exact hfr
  · rw [hr] at hf
    cases hf

/-- C4: whenever `readFile` returns a result with `success = false`, whatever the
registry, kind and path, the content mapping and the path mapping (indeed the
whole state) are what they were before the call. -/
theorem readFile_failure_leaves_registry (env : Environment) (fr : FileReader)
    (_kind _path : String) (r : Result) (fr' : FileReader)
    (h : readFile env fr _kind _path = .ok (r, fr')) (hf : r.success = false) :
    fr'.m_sourceCodes = fr.m_sourceCodes ∧ fr'.m_pathMappings = fr.m_pathMappings ∧
      fr' = fr := by
  have hfr := readFile_state_of_failure env fr _kind _path r fr' h hf
  subst hfr
  exact ⟨rfl, rfl, rfl⟩

/-- C4, at a registry that holds one source and its path: the read of the missing
file `src/c.sol` fails and the registry keeps exactly that entry. -/
theorem readFile_failure_leaves_registry_witness :
    ∃ fr', readFile exampleEnvironment (setSource_fspath exampleReader ⟨"/virtual/v.sol"⟩ "v")
        "source" "src/c.sol" = .ok (⟨false, "File not found."⟩, fr') ∧
      fr'.m_sourceCodes.entries = [("/virtual/v.sol", "v")] ∧
      fr'.m_pathMappings.entries = [("/virtual/v.sol", ⟨"/virtual/v.sol"⟩)] ∧
      fr' = setSource_fspath exampleReader ⟨"/virtual/v.sol"⟩ "v" :=
  ⟨_, rfl, rfl, rfl, (readFile_failure_leaves_registry exampleEnvironment
    (setSource_fspath exampleReader ⟨"/virtual/v.sol"⟩ "v") "source" "src/c.sol"
    ⟨false, "File not found."⟩ _ rfl rfl).2.2⟩

/-! ## When a read succeeds -/

/-- C5: `readFile` returns `success = true` exactly when the kind is the
recognized one, the canonical path is computed and passes the containment check,
it exists, it is a regular file and reading it throws nothing; the string returned
is then what `readFileAsString` gave for the canonical path. -/
theorem readFile_success_iff (env : Environment) (fr : FileReader) (_kind _path : String)
    (r : Result) (fr' : FileReader) :
    ((∃ r₀ fr₀, readFile env fr _kind _path = .ok (r₀, fr₀) ∧ r₀.success = true) ↔
      (_kind = env.kindString_ReadFile ∧ ∃ c,
        env.weakly_canonical (fr.m_basePath / (⟨validPath _path⟩ : Path)) = .ok c ∧
        isAllowed fr.m_allowedDirectories c = true ∧
        env.filesystem_exists c = .ok true ∧
        env.is_regular_file c = .ok true ∧
        ∃ contents, env.readFileAsString c.string = .ok contents)) ∧
    (readFile env fr _kind _path = .ok (r, fr') → r.success = true →
      ∃ c, env.weakly_canonical (fr.m_basePath / (⟨validPath _path⟩ : Path)) = .ok c ∧
        env.readFileAsString c.string = .ok r.responseOrErrorMessage) := by
  constructor
  · constructor
    · rintro ⟨r₀, fr₀, h, hs⟩
      rcases readFile_cases env fr _kind _path r₀ fr₀ h with
        ⟨hf, _⟩ | ⟨hk, c, contents, hc, ha, he, hr, hread, _, _⟩
      · rw [hf] at hs
        cases hs
      · exact ⟨hk, c, hc, ha, he, hr, contents, hread⟩
    · rintro ⟨hk, c, hc, ha, he, hr, contents, hread⟩
      subst hk
      exact ⟨_, _, readFile_of_checks env fr _path c contents hc ha he hr hread, rfl⟩
  · intro h hs
    rcases readFile_cases env fr _kind _path r fr' h with
      ⟨hf, _⟩ | ⟨_, c, contents, hc, _, _, _, hread, hr, _⟩
    · rw [hf] at hs
      cases hs
    · subst hr
      exact ⟨c, hc, hread⟩

/-- C5, at `BasePath = /project`, allow-list `{/project/src}`, path `src/a.sol`:
the read succeeds and returns the content of `/project/src/a.sol`. -/
theorem readFile_success_iff_witness :
    (∃ fr', readFile exampleEnvironment exampleReader "source" "src/a.sol" =
      .ok (⟨true, "contract A {}"⟩, fr')) ∧
    ∃ c, exampleEnvironment.weakly_canonical
        (exampleReader.m_basePath / (⟨validPath "src/a.sol"⟩ : Path)) = .ok c ∧
      exampleEnvironment.readFileAsString c.string = .ok "contract A {}" :=
  ⟨⟨_, rfl⟩, (readFile_success_iff exampleEnvironment exampleReader "source" "src/a.sol"
    ⟨true, "contract A {}"⟩ _).2 rfl rfl⟩

/-! ## The file:// scheme -/

theorem stringFindFrom_ge (needle : List Char) (s : List Char) (pos i : Nat)
    (h : stringFindFrom needle s pos = some i) : pos ≤ i := by
  induction s generalizing pos with
  | nil =>
    simp only [stringFindFrom] at h
    split at h
    · injection h with h
      omega
    · cases h
  | cons c cs ih =>
    simp only [stringFindFrom] at h
    split at h
    · injection h with h
      omega
    · have := ih (pos + 1) h
      omega

theorem stringFind_eq_zero_iff (s needle : String) :
    stringFind s needle = some 0 ↔ needle.toList <+: s.toList := by
  unfold stringFind
  cases hs : s.toList with
  | nil =>
    cases hn : needle.toList with
    | nil => simp [stringFindFrom]
    | cons a as => simp [stringFindFrom]
  | cons c cs =>
    simp only [stringFindFrom]
    by_cases hp : needle.toList.isPrefixOf (c :: cs) = true
    · simp only [hp, if_true, true_iff]
      exact List.isPrefixOf_iff_prefix.1 hp
    · simp only [hp]
      have hne : ¬ needle.toList <+: c :: cs := fun h => hp (List.isPrefixOf_iff_prefix.2 h)
      simp only [hne, iff_false]
      intro h
      have := stringFindFrom_ge _ _ _ _ h
      omega

theorem validPath_of_not_scheme (p : String) (hp : ¬ "file://".toList <+: p.toList) :
    validPath p = p := by
  unfold validPath
  rw [if_neg]
  rw [stringFind_eq_zero_iff]
  exact hp

theorem validPath_scheme_append (p : String) : validPath ("file://" ++ p) = p := by
  unfold validPath
  have h : stringFind ("file://" ++ p) "file://" = some 0 := by
    rw [stringFind_eq_zero_iff]
    exact ⟨p.toList, by simp [String.toList]⟩
  rw [if_pos h]
  have h7 : ("file://" ++ p).toList = 'f' :: 'i' :: 'l' :: 'e' :: ':' :: '/' :: '/' :: p.toList := by
    simp [String.toList]
  simp [stringErase, h7]

/-- Two requested strings with the same stripped path give the same result and the
same content mapping. -/
theorem readFile_congr_validPath (env : Environment) (fr : FileReader) (_kind a b : String)
    (h : validPath a = validPath b) :
    (readFile env fr _kind a).map (fun x => (x.1, x.2.m_sourceCodes)) =
      (readFile env fr _kind b).map (fun x => (x.1, x.2.m_sourceCodes)) := by
  by_cases hk : _kind = env.kindString_ReadFile
  swap
  · simp only [readFile, readFileBody, ne_eq, hk, not_false_eq_true, if_true]
  cases hc : env.weakly_canonical (fr.m_basePath / (⟨validPath b⟩ : Path)) with
  | error e => simp only [readFile, readFileBody, ne_eq, hk, not_true_eq_false, if_false, h, hc]
  | ok c =>
    by_cases ha : isAllowed fr.m_allowedDirectories c = true
    swap
    · simp [readFile, readFileBody, hk, h, hc, ha]
    cases he : env.filesystem_exists c with
    | error e =>
      simp only [readFile, readFileBody, ne_eq, hk, not_true_eq_false, if_false, h, hc, ha, he]
    | ok bo =>
      cases bo with
      | false => simp [readFile, readFileBody, hk, h, hc, ha, he]
      | true =>
        cases hr : env.is_regular_file c with
        | error e =>
          simp only [readFile, readFileBody, ne_eq, hk, not_true_eq_false, if_false, h, hc, ha,
            he, hr]
        | ok bo =>
          cases bo with
          | false => simp [readFile, readFileBody, hk, h, hc, ha, he, hr]
          | true =>
            cases hs : env.readFileAsString c.string with
            | error e =>
              simp only [readFile, readFileBody, ne_eq, hk, not_true_eq_false, if_false, h, hc,
                ha, he, hr, hs]
            | ok contents =>
              simp [readFile, readFileBody, hk, h, hc, ha, he, hr, hs, Except.map]

/-- C6, as stated, fails: the reads of `file://src/a.sol` and of `src/a.sol` return
the same result, but the first records the path under the key `file://src/a.sol`
and the second under `src/a.sol`, so the registries differ afterwards. -/
theorem readFile_file_scheme_counterexample :
    ¬ "file://".toList <+: "src/a.sol".toList ∧
    ∃ fr₁ fr₂,
      readFile exampleEnvironment exampleReader "source" ("file://" ++ "src/a.sol") =
        .ok (⟨true, "contract A {}"⟩, fr₁) ∧
      readFile exampleEnvironment exampleReader "source" "src/a.sol" =
        .ok (⟨true, "contract A {}"⟩, fr₂) ∧
      fr₁.m_pathMappings.keys = ["file://src/a.sol"] ∧
      fr₂.m_pathMappings.keys = ["src/a.sol"] ∧
      fr₁ ≠ fr₂ := by
  refine ⟨by decide, _, _, rfl, rfl, rfl, rfl, ?_⟩
  intro h
  have hkeys := congrArg (fun fr => fr.m_pathMappings.keys) h
  revert hkeys
  decide

/-- C6, amended: for every path `p` that does not begin with `file://`,
`readFile(kind, "file://" + p)` and `readFile(kind, p)` return the same result and
leave the same content mapping; when they fail both leave the state as it was; when
they succeed the path mapping records the joined path under the string that was
requested, `"file://" + p` in the first call and `p` in the second. -/
theorem readFile_file_scheme (env : Environment) (fr : FileReader) (_kind p : String)
    (hp : ¬ "file://".toList <+: p.toList) :
    ∃ r fr₁ fr₂,
      readFile env fr _kind ("file://" ++ p) = .ok (r, fr₁) ∧
      readFile env fr _kind p = .ok (r, fr₂) ∧
      fr₁.m_sourceCodes = fr₂.m_sourceCodes ∧
      (r.success = false → fr₁ = fr ∧ fr₂ = fr) ∧
      (r.success = true →
        fr₁.m_pathMappings =
          fr.m_pathMappings.assign ("file://" ++ p) (fr.m_basePath / (⟨p⟩ : Path)) ∧
        fr₂.m_pathMappings = fr.m_pathMappings.assign p (fr.m_basePath / (⟨p⟩ : Path))) := by
  have hv : validPath ("file://" ++ p) = validPath p := by
    rw [validPath_scheme_append, validPath_of_not_scheme p hp]
  obtain ⟨⟨r₁, fr₁⟩, h₁⟩ := readFile_returns env fr _kind ("file://" ++ p)
  obtain ⟨⟨r₂, fr₂⟩, h₂⟩ := readFile_returns env fr _kind p
  have hmap := readFile_congr_validPath env fr _kind ("file://" ++ p) p hv
  rw [h₁, h₂] at hmap
  simp only [Except.map, Except.ok.injEq, Prod.mk.injEq] at hmap
  obtain ⟨hr, hsc⟩ := hmap
  subst hr
  refine ⟨r₁, fr₁, fr₂, h₁, h₂, hsc, ?_, ?_⟩
  · intro hf
    exact ⟨readFile_state_of_failure env fr _kind _ r₁ fr₁ h₁ hf,
      readFile_state_of_failure env fr _kind _ r₁ fr₂ h₂ hf⟩
  · intro hs
    constructor
    · rcases readFile_cases env fr _kind _ r₁ fr₁ h₁ with
        ⟨hf, _⟩ | ⟨_, c, contents, _, _, _, _, _, _, hfr⟩
      · rw [hf] at hs
        cases hs
      · rw [hfr, validPath_scheme_append]
    · rcases readFile_cases env fr _kind _ r₁ fr₂ h₂ with
        ⟨hf, _⟩ | ⟨_, c, contents, _, _, _, _, _, _, hfr⟩
      · rw [hf] at hs
        cases hs
      · rw [hfr, validPath_of_not_scheme p hp]

/-- C6, amended, at `p = src/a.sol`. -/
theorem readFile_file_scheme_witness :
    ∃ r fr₁ fr₂,
      readFile exampleEnvironment exampleReader "source" ("file://" ++ "src/a.sol") =
        .ok (r, fr₁) ∧
      readFile exampleEnvironment exampleReader "source" "src/a.sol" = .ok (r, fr₂) ∧
      fr₁.m_sourceCodes = fr₂.m_sourceCodes ∧
      (r.success = false → fr₁ = exampleReader ∧ fr₂ = exampleReader) ∧
      (r.success = true →
        fr₁.m_pathMappings = exampleReader.m_pathMappings.assign ("file://" ++ "src/a.sol")
          (exampleReader.m_basePath / (⟨"src/a.sol"⟩ : Path)) ∧
        fr₂.m_pathMappings = exampleReader.m_pathMappings.assign "src/a.sol"
          (exampleReader.m_basePath / (⟨"src/a.sol"⟩ : Path))) :=
  readFile_file_scheme exampleEnvironment exampleReader "source" "src/a.sol" (by decide)

/-! ## The registry operations -/

theorem foldl_emplace_back {β : Type} (l : List (String × β)) (names : List String) :
    l.foldl (fun names source => names ++ [source.1]) names = names ++ l.map Prod.fst := by
  induction l generalizing names with
  | nil => simp
  | cons e rest ih => simp [ih]

theorem sourceUnitIDs_eq_keys (fr : FileReader) : sourceUnitIDs fr = fr.m_sourceCodes.keys := by
  simp [sourceUnitIDs, foldl_emplace_back, Map.keys]

theorem SetSourceCall.apply_sourceCodes (fr : FileReader) (c : SetSourceCall) :
    (c.apply fr).m_sourceCodes = fr.m_sourceCodes.assign c.sourceUnitID c.source := by
  cases c with
  | fspath p src => rfl
  | id i src => rfl
  | optional i p src => cases p <;> rfl

theorem sourceUnitIDs_apply (fr : FileReader) (c : SetSourceCall) :
    sourceUnitIDs (c.apply fr) =
      if c.sourceUnitID ∈ sourceUnitIDs fr then sourceUnitIDs fr
      else sourceUnitIDs fr ++ [c.sourceUnitID] := by
  rw [sourceUnitIDs_eq_keys, sourceUnitIDs_eq_keys, SetSourceCall.apply_sourceCodes,
    Map.keys_assign]

theorem sourceUnitIDs_nodup (fr : FileReader) : (sourceUnitIDs fr).Nodup := by
  rw [sourceUnitIDs_eq_keys]
  exact fr.m_sourceCodes.nodup

/-- C7: `sourceUnitIDs()` returns exactly the keys of the content mapping, in the
iteration order of the container; after any sequence of `setSource` calls these
are the IDs known before followed by the new IDs in the order in which each was
first inserted, and a read appends its content key when it succeeds with a key
not yet listed and otherwise changes nothing in the list. As a const member it is a
function of the state and yields no new state. -/
theorem sourceUnitIDs_insertion_order (env : Environment) (fr : FileReader)
    (calls : List SetSourceCall) (_kind _path : String) (r : Result) (fr' : FileReader) :
    sourceUnitIDs fr = fr.m_sourceCodes.entries.map Prod.fst ∧
    (∀ k, k ∈ sourceUnitIDs fr ↔ (fr.m_sourceCodes.find? k).isSome = true) ∧
    sourceUnitIDs (calls.foldl SetSourceCall.apply fr) =
      firstInsertionOrder (sourceUnitIDs fr) (calls.map SetSourceCall.sourceUnitID) ∧
    (readFile env fr _kind _path = .ok (r, fr') →
      sourceUnitIDs fr' =
        if r.success = true then
          firstInsertionOrder (sourceUnitIDs fr)
            [(fr.m_basePath / (⟨validPath _path⟩ : Path)).generic_string]
        else sourceUnitIDs fr) := by
  refine ⟨sourceUnitIDs_eq_keys fr, ?_, ?_, ?_⟩
  · intro k
    rw [sourceUnitIDs_eq_keys]
    unfold Map.keys Map.find?
    induction fr.m_sourceCodes.entries with
    | nil => simp [Map.findEntries]
    | cons e rest ih =>
      by_cases h : e.1 = k
      · simp [Map.findEntries, h]
      · have h' : ¬ k = e.1 := fun hk => h hk.symm
        simp only [List.map_cons, List.mem_cons, h', false_or, Map.findEntries, h, if_false]
        exact ih
  · induction calls generalizing fr with
    | nil => rfl
    | cons c rest ih =>
      simp only [List.foldl_cons, List.map_cons, firstInsertionOrder]
      rw [ih (c.apply fr), sourceUnitIDs_apply]
      rfl
  · intro hread
    rcases readFile_cases env fr _kind _path r fr' hread with
      ⟨hf, hfr⟩ | ⟨_, cp, contents, _, _, _, _, _, hr, hfr⟩
    · subst hfr
      simp [hf]
    · subst hr hfr
      simp only [if_true, firstInsertionOrder, List.foldl_cons, List.foldl_nil]
      rw [sourceUnitIDs_eq_keys, sourceUnitIDs_eq_keys]
      exact Map.keys_assign _ _ _

/-- C7, at the example reader: `b.sol` is set before `a.sol` and set again after it,
and is listed first; the read of `src/a.sol` then appends its content key. -/
theorem sourceUnitIDs_insertion_order_witness :
    sourceUnitIDs (List.foldl SetSourceCall.apply exampleReader
      [.id "b.sol" "1", .fspath ⟨"a.sol"⟩ "2", .optional "b.sol" none "3"]) =
        ["b.sol", "a.sol"] ∧
    ∃ fr', readFile exampleEnvironment (List.foldl SetSourceCall.apply exampleReader
        [.id "b.sol" "1", .fspath ⟨"a.sol"⟩ "2", .optional "b.sol" none "3"])
        "source" "src/a.sol" = .ok (⟨true, "contract A {}"⟩, fr') ∧
      sourceUnitIDs fr' = ["b.sol", "a.sol", "/project/src/a.sol"] := by
  have h := sourceUnitIDs_insertion_order exampleEnvironment
    (List.foldl SetSourceCall.apply exampleReader
      [.id "b.sol" "1", .fspath ⟨"a.sol"⟩ "2", .optional "b.sol" none "3"])
    [] "source" "src/a.sol" ⟨true, "contract A {}"⟩
    { List.foldl SetSourceCall.apply exampleReader
        [.id "b.sol" "1", .fspath ⟨"a.sol"⟩ "2", .optional "b.sol" none "3"] with
      m_sourceCodes := (List.foldl SetSourceCall.apply exampleReader
        [.id "b.sol" "1", .fspath ⟨"a.sol"⟩ "2", .optional "b.sol" none "3"]).m_sourceCodes.assign
          "/project/src/a.sol" "contract A {}"
      m_pathMappings := (List.foldl SetSourceCall.apply exampleReader
        [.id "b.sol" "1", .fspath ⟨"a.sol"⟩ "2", .optional "b.sol" none "3"]).m_pathMappings.assign
          "src/a.sol" ⟨"/project/src/a.sol"⟩ }
  exact ⟨rfl, _, rfl, (h.2.2.2 rfl).trans rfl⟩

theorem mem_sourceUnitIDs_apply (fr : FileReader) (c : SetSourceCall) :
    c.sourceUnitID ∈ sourceUnitIDs (c.apply fr) := by
  rw [sourceUnitIDs_apply]
  split
  · assumption
  · simp

/-- C8: after a `setSource` call of any form the list of `sourceUnitIDs()` holds the
ID of the call exactly once; a further `setSource` call of any form for the same ID
leaves the length of the list as it is, keeps the ID listed once, and makes the
stored content the content of that further call. -/
theorem setSource_lists_id_once (fr : FileReader) (c c' : SetSourceCall)
    (hid : c'.sourceUnitID = c.sourceUnitID) :
    (sourceUnitIDs (c.apply fr)).count c.sourceUnitID = 1 ∧
    (c.apply fr).m_sourceCodes.find? c.sourceUnitID = some c.source ∧
    (sourceUnitIDs (c'.apply (c.apply fr))).length = (sourceUnitIDs (c.apply fr)).length ∧
    (sourceUnitIDs (c'.apply (c.apply fr))).count c.sourceUnitID = 1 ∧
    (c'.apply (c.apply fr)).m_sourceCodes.find? c.sourceUnitID = some c'.source := by
  refine ⟨?_, ?_, ?_, ?_, ?_⟩
  · exact List.count_eq_one_of_mem (sourceUnitIDs_nodup _) (mem_sourceUnitIDs_apply fr c)
  · rw [SetSourceCall.apply_sourceCodes]
    exact Map.find?_assign_same _ _ _
  · rw [sourceUnitIDs_apply (c.apply fr) c', hid, if_pos (mem_sourceUnitIDs_apply fr c)]
  · rw [← hid]
    exact List.count_eq_one_of_mem (sourceUnitIDs_nodup _)
      (mem_sourceUnitIDs_apply (c.apply fr) c')
  · rw [SetSourceCall.apply_sourceCodes, ← hid]
    exact Map.find?_assign_same _ _ _

/-- C8, at a registry that already lists `lib.sol`: `a.sol` is set by path and then
set again by ID. -/
theorem setSource_lists_id_once_witness :
    sourceUnitIDs (SetSourceCall.apply (setSource exampleReader "lib.sol" "l")
      (.fspath ⟨"a.sol"⟩ "one")) = ["lib.sol", "a.sol"] ∧
    sourceUnitIDs (SetSourceCall.apply (SetSourceCall.apply
      (setSource exampleReader "lib.sol" "l") (.fspath ⟨"a.sol"⟩ "one")) (.id "a.sol" "two")) =
        ["lib.sol", "a.sol"] ∧
    (SetSourceCall.apply (SetSourceCall.apply
      (setSource exampleReader "lib.sol" "l") (.fspath ⟨"a.sol"⟩ "one"))
        (.id "a.sol" "two")).m_sourceCodes.find? "a.sol" = some "two" :=
  ⟨rfl, rfl, (setSource_lists_id_once (setSource exampleReader "lib.sol" "l")
    (.fspath ⟨"a.sol"⟩ "one") (.id "a.sol" "two") rfl).2.2.2.2⟩

/-- C9: after `setSources(M)` the content mapping is `M`, whatever it held before,
and the path mapping is empty. -/
theorem setSources_replaces (fr : FileReader) (M : Map String) :
    (setSources fr M).m_sourceCodes = M ∧
    (∀ k, (setSources fr M).m_sourceCodes.find? k = M.find? k) ∧
    sourceUnitIDs (setSources fr M) = M.keys ∧
    (setSources fr M).m_pathMappings.entries = [] ∧
    (∀ k, (setSources fr M).m_pathMappings.find? k = none) :=
  ⟨rfl, fun _ => rfl, sourceUnitIDs_eq_keys _, rfl, fun _ => rfl⟩

/-! ## Path keys and content keys -/

theorem pathKeysSubset_apply (fr : FileReader) (c : SetSourceCall) (h : pathKeysSubset fr) :
    pathKeysSubset (c.apply fr) := by
  have hsub : ∀ j, j ∈ fr.m_sourceCodes.keys → j ∈ (c.apply fr).m_sourceCodes.keys := by
    intro j hj
    rw [SetSourceCall.apply_sourceCodes, Map.mem_keys_assign]
    exact Or.inr hj
  have hid : c.sourceUnitID ∈ (c.apply fr).m_sourceCodes.keys := by
    rw [SetSourceCall.apply_sourceCodes, Map.mem_keys_assign]
    exact Or.inl rfl
  intro j hj
  cases c with
  | fspath p src =>
    have hj' : j ∈ (fr.m_pathMappings.assign p.generic_string ⟨p.generic_string⟩).keys := hj
    rw [Map.mem_keys_assign] at hj'
    rcases hj' with rfl | hj'
    · exact hid
    · exact hsub j (h hj')
  | id i src => exact hsub j (h hj)
  | optional i p src =>
    cases p with
    | none => exact hsub j (h hj)
    | some value =>
      have hj' : j ∈ (fr.m_pathMappings.assign i value).keys := hj
      rw [Map.mem_keys_assign] at hj'
      rcases hj' with rfl | hj'
      · exact hid
      · exact hsub j (h hj')

/-- C10, as stated, fails: the empty registry has the subset property, the read of
`src/a.sol` succeeds, and afterwards the path mapping has the key `src/a.sol`
while the only key of the content mapping is `/project/src/a.sol`. -/
theorem pathKeysSubset_counterexample :
    pathKeysSubset exampleReader ∧
    ∃ fr', readFile exampleEnvironment exampleReader "source" "src/a.sol" =
        .ok (⟨true, "contract A {}"⟩, fr') ∧
      fr'.m_pathMappings.keys = ["src/a.sol"] ∧
      fr'.m_sourceCodes.keys = ["/project/src/a.sol"] ∧
      ¬ pathKeysSubset fr' := by
  refine ⟨fun _ h => h, _, rfl, rfl, rfl, ?_⟩
  intro h
  have hmem := h (List.mem_singleton.2 rfl : "src/a.sol" ∈ ["src/a.sol"])
  revert hmem
  decide

/-- C10, amended: the key set of the path mapping is a subset of the key set of the
content mapping for the empty registry, and this is preserved by every form of
`setSource`, by `setSources`, and by every `readFile` that returns a failure. A
successful read stores the content under the generic string of the joined path
and the path under the requested string, so it preserves the property exactly
when the requested string is that generic string or was already a content key. -/
theorem pathKeysSubset_preserved (env : Environment) (fr : FileReader) (c : SetSourceCall)
    (M : Map String) (_kind _path : String) (r : Result) (fr' : FileReader)
    (h : pathKeysSubset fr) :
    pathKeysSubset ⟨fr.m_basePath, fr.m_allowedDirectories, Map.empty, Map.empty⟩ ∧
    pathKeysSubset (c.apply fr) ∧
    pathKeysSubset (setSources fr M) ∧
    (readFile env fr _kind _path = .ok (r, fr') →
      (pathKeysSubset fr' ↔
        (r.success = false ∨
          _path = (fr.m_basePath / (⟨validPath _path⟩ : Path)).generic_string ∨
          _path ∈ fr.m_sourceCodes.keys))) := by
  refine ⟨fun _ hj => hj, pathKeysSubset_apply fr c h, ?_, ?_⟩
  · intro j hj
    cases hj
  · intro hread
    rcases readFile_cases env fr _kind _path r fr' hread with
      ⟨hf, hfr⟩ | ⟨_, cp, contents, _, _, _, _, _, hr, hfr⟩
    · subst hfr
      exact ⟨fun _ => Or.inl hf, fun _ => h⟩
    · subst hr hfr
      constructor
      · intro hinv
        right
        have hmem := hinv ((Map.mem_keys_assign _ _ _ _).2 (Or.inl rfl) :
          _path ∈ (fr.m_pathMappings.assign _path _).keys)
        exact (Map.mem_keys_assign _ _ _ _).1 hmem
      · rintro (hf | hkey)
        · cases hf
        · intro j hj
          have hj' := (Map.mem_keys_assign _ _ _ _).1 hj
          apply (Map.mem_keys_assign _ _ _ _).2
          rcases hj' with rfl | hj'
          · exact hkey
          · exact Or.inr (h hj')

/-- C10, amended, at a reader with an empty base path and the allow-list
`{/project/src}`: a `setSource` by path keeps the property, and so does the
successful read of `/project/src/a.sol`, whose requested string is its own content
key. -/
theorem pathKeysSubset_preserved_witness :
    pathKeysSubset (SetSourceCall.apply exampleRootReader (.fspath ⟨"/virtual/v.sol"⟩ "v")) ∧
    ∃ fr', readFile exampleEnvironment exampleRootReader "source" "/project/src/a.sol" =
        .ok (⟨true, "contract A {}"⟩, fr') ∧
      fr'.m_pathMappings.keys = ["/project/src/a.sol"] ∧
      fr'.m_sourceCodes.keys = ["/project/src/a.sol"] ∧
      pathKeysSubset fr' := by
  have h := pathKeysSubset_preserved exampleEnvironment exampleRootReader
    (.fspath ⟨"/virtual/v.sol"⟩ "v") Map.empty "source" "/project/src/a.sol"
    ⟨true, "contract A {}"⟩
    { exampleRootReader with
      m_sourceCodes := Map.empty.assign "/project/src/a.sol" "contract A {}"
      m_pathMappings := Map.empty.assign "/project/src/a.sol" ⟨"/project/src/a.sol"⟩ }
    (fun _ hj => hj)
  exact ⟨h.2.1, _, rfl, rfl, rfl, (h.2.2.2 rfl).2 (Or.inr (Or.inl rfl))⟩

/-! ## The forms of setSource -/

/-- C11: `setSource(id, content)` makes the content mapping hold `content` under
`id` and leaves the whole path mapping as it was; the path entry of `id`, present
or not, is the one from before. -/
theorem setSource_keeps_pathMappings (fr : FileReader) (_sourceUnitID _source : String) :
    (setSource fr _sourceUnitID _source).m_sourceCodes.find? _sourceUnitID = some _source ∧
    (setSource fr _sourceUnitID _source).m_pathMappings = fr.m_pathMappings ∧
    (setSource fr _sourceUnitID _source).m_pathMappings.find? _sourceUnitID =
      fr.m_pathMappings.find? _sourceUnitID :=
  ⟨Map.find?_assign_same _ _ _, rfl, rfl⟩

/-- C12: `setSource(id, path, content)` stores `content` under `id`; with a path
present the path mapping afterwards is the former one with `id` assigned that path,
so `id` maps to it whatever it mapped to before; with the path absent the path
mapping is unchanged. -/
theorem setSource_optional_records_path (fr : FileReader) (_sourceUnitID : String)
    (_fspath : Option Path) (value : Path) (_source : String) :
    (setSource_optional fr _sourceUnitID _fspath _source).m_sourceCodes.find? _sourceUnitID =
      some _source ∧
    (setSource_optional fr _sourceUnitID (some value) _source).m_pathMappings =
      fr.m_pathMappings.assign _sourceUnitID value ∧
    (setSource_optional fr _sourceUnitID (some value) _source).m_pathMappings.find?
      _sourceUnitID = some value ∧
    (setSource_optional fr _sourceUnitID none _source).m_pathMappings = fr.m_pathMappings := by
  refine ⟨?_, rfl, Map.find?_assign_same _ _ _, rfl⟩
  cases _fspath <;> exact Map.find?_assign_same _ _ _

/-- C13: `setSource(fsPath, content)` takes the generic string of the path as the
source-unit ID: afterwards the content mapping maps that ID to `content`, the path
mapping maps the same ID to the path, and the ID is listed by `sourceUnitIDs()`. -/
theorem setSource_fspath_uses_generic_string (fr : FileReader) (_fspath : Path)
    (_source : String) :
    (setSource_fspath fr _fspath _source).m_sourceCodes.find? _fspath.generic_string =
      some _source ∧
    (setSource_fspath fr _fspath _source).m_pathMappings.find? _fspath.generic_string =
      some _fspath ∧
    (setSource_fspath fr _fspath _source).m_sourceCodes =
      fr.m_sourceCodes.assign _fspath.generic_string _source ∧
    (setSource_fspath fr _fspath _source).m_pathMappings =
      fr.m_pathMappings.assign _fspath.generic_string ⟨_fspath.generic_string⟩ ∧
    _fspath.generic_string ∈ sourceUnitIDs (setSource_fspath fr _fspath _source) := by
  refine ⟨Map.find?_assign_same _ _ _, Map.find?_assign_same _ _ _, rfl, rfl, ?_⟩
  rw [sourceUnitIDs_eq_keys]
  exact (Map.mem_keys_assign _ _ _ _).2 (Or.inl rfl)

/-- C14: after `setSources(M)` and then a `setSource` call for an ID that passes no
path, in the two-argument form or in the three-argument form with an absent path,
the lookup of the ID in the path mapping yields no path. -/
theorem setSources_then_setSource_has_no_path (fr : FileReader) (M : Map String)
    (_sourceUnitID _source : String) :
    (setSource (setSources fr M) _sourceUnitID _source).m_pathMappings.find? _sourceUnitID =
      none ∧
    (setSource_optional (setSources fr M) _sourceUnitID none _source).m_pathMappings.find?
      _sourceUnitID = none ∧
    (setSource (setSources fr M) _sourceUnitID _source).m_sourceCodes.find? _sourceUnitID =
      some _source ∧
    (setSource_optional (setSources fr M) _sourceUnitID none _source).m_sourceCodes.find?
      _sourceUnitID = some _source :=
  ⟨rfl, rfl, Map.find?_assign_same _ _ _, Map.find?_assign_same _ _ _⟩

/-- C19: a `setSource` call of any form changes only the entries of its own ID: for
every other ID the content entry and the path entry, present or absent, are the
same before and after the call. -/
theorem setSource_changes_only_its_id (fr : FileReader) (c : SetSourceCall) (j : String)
    (hj : j ≠ c.sourceUnitID) :
    (c.apply fr).m_sourceCodes.find? j = fr.m_sourceCodes.find? j ∧
    (c.apply fr).m_pathMappings.find? j = fr.m_pathMappings.find? j := by
  constructor
  · rw [SetSourceCall.apply_sourceCodes]
    exact Map.find?_assign_other _ _ _ _ hj
  · cases c with
    | fspath p src => exact Map.find?_assign_other _ _ _ _ hj
    | id i src => rfl
    | optional i p src =>
      cases p with
      | none => rfl
      | some value => exact Map.find?_assign_other _ _ _ _ hj

/-- C19, at a registry that holds `lib.sol` with its path: setting `a.sol` by path
leaves both entries of `lib.sol` as they were. -/
theorem setSource_changes_only_its_id_witness :
    (SetSourceCall.apply (setSource_fspath exampleReader ⟨"lib.sol"⟩ "l")
      (.fspath ⟨"a.sol"⟩ "one")).m_sourceCodes.find? "lib.sol" = some "l" ∧
    (SetSourceCall.apply (setSource_fspath exampleReader ⟨"lib.sol"⟩ "l")
      (.fspath ⟨"a.sol"⟩ "one")).m_pathMappings.find? "lib.sol" = some ⟨"lib.sol"⟩ ∧
    (SetSourceCall.apply (setSource_fspath exampleReader ⟨"lib.sol"⟩ "l")
      (.fspath ⟨"a.sol"⟩ "one")).m_sourceCodes.find? "lib.sol" =
        (setSource_fspath exampleReader ⟨"lib.sol"⟩ "l").m_sourceCodes.find? "lib.sol" ∧
    (SetSourceCall.apply (setSource_fspath exampleReader ⟨"lib.sol"⟩ "l")
      (.fspath ⟨"a.sol"⟩ "one")).m_pathMappings.find? "lib.sol" =
        (setSource_fspath exampleReader ⟨"lib.sol"⟩ "l").m_pathMappings.find? "lib.sol" :=
  ⟨rfl, rfl, setSource_changes_only_its_id (setSource_fspath exampleReader ⟨"lib.sol"⟩ "l")
    (.fspath ⟨"a.sol"⟩ "one") "lib.sol" (by decide)⟩

/-! ## The order of the checks -/

theorem readFile_of_missing (env : Environment) (fr : FileReader) (_path : String) (c : Path)
    (hc : env.weakly_canonical (fr.m_basePath / (⟨validPath _path⟩ : Path)) = .ok c)
    (ha : isAllowed fr.m_allowedDirectories c = true)
    (he : env.filesystem_exists c = .ok false) :
    readFile env fr env.kindString_ReadFile _path = .ok (⟨false, "File not found."⟩, fr) := by
  simp [readFile, readFileBody, hc, ha, he]

/-- C15: for the recognized kind and a path whose canonical form passes the
containment check and exists but is not a regular file, `readFile` returns exactly
`(false, "Not a valid file.")`, and the state stays as it was. -/
theorem readFile_not_a_regular_file (env : Environment) (fr : FileReader) (_path : String)
    (c : Path)
    (hc : env.weakly_canonical (fr.m_basePath / (⟨validPath _path⟩ : Path)) = .ok c)
    (ha : isAllowed fr.m_allowedDirectories c = true)
    (he : env.filesystem_exists c = .ok true)
    (hr : env.is_regular_file c = .ok false) :
    readFile env fr env.kindString_ReadFile _path = .ok (⟨false, "Not a valid file."⟩, fr) := by
  simp [readFile, readFileBody, hc, ha, he, hr]

/-- C15, at the existing directory `/project/src`, requested as `src`. -/
theorem readFile_not_a_regular_file_witness :
    exampleEnvironment.weakly_canonical
        (exampleReader.m_basePath / (⟨validPath "src"⟩ : Path)) = .ok ⟨"/project/src"⟩ ∧
    readFile exampleEnvironment exampleReader "source" "src" =
      .ok (⟨false, "Not a valid file."⟩, exampleReader) :=
  ⟨rfl, readFile_not_a_regular_file exampleEnvironment exampleReader "src" ⟨"/project/src"⟩
    rfl rfl rfl rfl⟩

/-- C16: the checks run in order and the first one that fails decides: for the
recognized kind, a canonical path that fails the containment check gives exactly
`(false, "File outside of allowed directories.")` whatever the existence check,
the type check and the read would answer, and a canonical path that passes it but
does not exist gives exactly `(false, "File not found.")` whatever the type check
and the read would answer. -/
theorem readFile_first_failing_check_decides (env : Environment) (fr : FileReader)
    (_path : String) (c : Path)
    (ex reg : Path → Except Exception Bool) (rd : String → Except Exception String)
    (hc : env.weakly_canonical (fr.m_basePath / (⟨validPath _path⟩ : Path)) = .ok c) :
    (isAllowed fr.m_allowedDirectories c = false →
      readFile { env with filesystem_exists := ex, is_regular_file := reg,
                          readFileAsString := rd } fr env.kindString_ReadFile _path =
        .ok (⟨false, "File outside of allowed directories."⟩, fr)) ∧
    (isAllowed fr.m_allowedDirectories c = true → env.filesystem_exists c = .ok false →
      readFile { env with is_regular_file := reg, readFileAsString := rd } fr
          env.kindString_ReadFile _path =
        .ok (⟨false, "File not found."⟩, fr)) := by
  constructor
  · intro ha
    exact readFile_of_not_isAllowed
      { env with filesystem_exists := ex, is_regular_file := reg, readFileAsString := rd }
      fr _path c hc ha
  · intro ha he
    exact readFile_of_missing { env with is_regular_file := reg, readFileAsString := rd }
      fr _path c hc ha he

/-- C16, at `BasePath = /project` and allow-list `{/project/src}`: `../etc/passwd`
resolves to the existing file `/etc/passwd` and is refused as outside; `src/c.sol`
is inside and missing. -/
theorem readFile_first_failing_check_decides_witness :
    exampleEnvironment.weakly_canonical
        (exampleReader.m_basePath / (⟨validPath "../etc/passwd"⟩ : Path)) =
      .ok ⟨"/etc/passwd"⟩ ∧
    exampleEnvironment.filesystem_exists ⟨"/etc/passwd"⟩ = .ok true ∧
    readFile exampleEnvironment exampleReader "source" "../etc/passwd" =
      .ok (⟨false, "File outside of allowed directories."⟩, exampleReader) ∧
    readFile exampleEnvironment exampleReader "source" "src/c.sol" =
      .ok (⟨false, "File not found."⟩, exampleReader) :=
  ⟨rfl, rfl,
    (readFile_first_failing_check_decides exampleEnvironment exampleReader "../etc/passwd"
      ⟨"/etc/passwd"⟩ exampleEnvironment.filesystem_exists exampleEnvironment.is_regular_file
      exampleEnvironment.readFileAsString rfl).1 rfl,
    (readFile_first_failing_check_decides exampleEnvironment exampleReader "src/c.sol"
      ⟨"/project/src/c.sol"⟩ exampleEnvironment.filesystem_exists
      exampleEnvironment.is_regular_file exampleEnvironment.readFileAsString rfl).2 rfl rfl⟩

/-! ## The path that is resolved -/

theorem validPath_eq_stripScheme (_path : String) : validPath _path = stripScheme _path := by
  unfold validPath stripScheme
  by_cases h : "file://".toList <+: _path.toList
  · rw [if_pos ((stringFind_eq_zero_iff _ _).2 h), if_pos h]
    simp [stringErase]
  · have h' : ¬ stringFind _path "file://" = some 0 := fun hf =>
      h ((stringFind_eq_zero_iff _ _).1 hf)
    rw [if_neg h', if_neg h]

/-- C17: the path `readFile` resolves is the base path joined with the stripped
path, where stripping removes exactly the first 7 characters of a path that begins
with `file://` and returns any other path unchanged. It is the only path whose
canonical form is asked for, an error of that canonicalization is what the call
answers with, and a successful call records it in the path mapping. A `file://`
that is not at position 0 is kept, and of two leading ones only the first goes. -/
theorem readFile_resolves_stripped_path (env : Environment) (fr : FileReader)
    (_kind _path : String) (wc : Path → Except Exception Path) (e : Exception) (r : Result)
    (fr' : FileReader) :
    validPath _path = stripScheme _path ∧
    validPath "file://file://x" = "file://x" ∧
    validPath "a/file://x" = "a/file://x" ∧
    (wc (fr.m_basePath / (⟨stripScheme _path⟩ : Path)) =
        env.weakly_canonical (fr.m_basePath / (⟨stripScheme _path⟩ : Path)) →
      readFile { env with weakly_canonical := wc } fr _kind _path =
        readFile env fr _kind _path) ∧
    (env.weakly_canonical (fr.m_basePath / (⟨stripScheme _path⟩ : Path)) = .error e →
      readFile env fr env.kindString_ReadFile _path =
        .ok (⟨false,
          if e.isUtilException = true then
            "Exception in read callback: " ++ e.diagnostic_information
          else "Unknown exception in read callback."⟩, fr)) ∧
    (readFile env fr _kind _path = .ok (r, fr') → r.success = true →
      fr'.m_pathMappings.find? _path = some (fr.m_basePath / (⟨stripScheme _path⟩ : Path)) ∧
      fr'.m_sourceCodes.find? (fr.m_basePath / (⟨stripScheme _path⟩ : Path)).generic_string =
        some r.responseOrErrorMessage) := by
  have hv := validPath_eq_stripScheme _path
  refine ⟨hv, by decide, by decide, ?_, ?_, ?_⟩
  · intro hwc
    simp only [readFile, readFileBody, hv, hwc]
  · intro he
    simp only [readFile, readFileBody, ne_eq, not_true_eq_false, if_false, hv, he]
    split <;> simp_all
  · intro h hs
    rcases readFile_cases env fr _kind _path r fr' h with
      ⟨hf, _⟩ | ⟨_, c, contents, _, _, _, _, _, hr, hfr⟩
    · rw [hf] at hs
      cases hs
    · subst hr hfr
      rw [← hv]
      exact ⟨Map.find?_assign_same _ _ _, Map.find?_assign_same _ _ _⟩

/-- C17, at the request `file://src/a.sol`: the joined path is `/project/src/a.sol`
and the read records it under the requested string. -/
theorem readFile_resolves_stripped_path_witness :
    stripScheme "file://src/a.sol" = "src/a.sol" ∧
    ∃ fr', readFile exampleEnvironment exampleReader "source" "file://src/a.sol" =
        .ok (⟨true, "contract A {}"⟩, fr') ∧
      fr'.m_pathMappings.find? "file://src/a.sol" = some ⟨"/project/src/a.sol"⟩ := by
  have h := readFile_resolves_stripped_path exampleEnvironment exampleReader "source"
    "file://src/a.sol" exampleEnvironment.weakly_canonical ⟨false, ""⟩
    ⟨true, "contract A {}"⟩
    { exampleReader with
      m_sourceCodes := Map.empty.assign "/project/src/a.sol" "contract A {}"
      m_pathMappings := Map.empty.assign "file://src/a.sol" ⟨"/project/src/a.sol"⟩ }
  exact ⟨by decide, _, rfl, (h.2.2.2.2.2 rfl rfl).1⟩

/-! ## The empty allow-list -/

/-- C18: with an empty allow-list, `readFile` with the recognized kind returns
exactly `(false, "File outside of allowed directories.")` for every path whenever
the canonicalization returns, and it does so whatever the existence check, the type
check and the read would answer: none of them is reached. -/
theorem readFile_empty_allowlist (env : Environment) (fr : FileReader) (_path : String)
    (c : Path) (ex reg : Path → Except Exception Bool) (rd : String → Except Exception String)
    (hempty : fr.m_allowedDirectories = [])
    (hc : env.weakly_canonical (fr.m_basePath / (⟨validPath _path⟩ : Path)) = .ok c) :
    readFile env fr env.kindString_ReadFile _path =
      .ok (⟨false, "File outside of allowed directories."⟩, fr) ∧
    readFile { env with filesystem_exists := ex, is_regular_file := reg,
                        readFileAsString := rd } fr env.kindString_ReadFile _path =
      .ok (⟨false, "File outside of allowed directories."⟩, fr) := by
  have ha : isAllowed fr.m_allowedDirectories c = false := by
    rw [hempty]
    rfl
  exact ⟨readFile_of_not_isAllowed env fr _path c hc ha,
    readFile_of_not_isAllowed
      { env with filesystem_exists := ex, is_regular_file := reg, readFileAsString := rd }
      fr _path c hc ha⟩

/-- C18, at the existing regular file `/project/src/a.sol`: with no allowed
directory it is refused, also when every later query would throw. -/
theorem readFile_empty_allowlist_witness :
    exampleEnvironment.is_regular_file ⟨"/project/src/a.sol"⟩ = .ok true ∧
    readFile exampleEnvironment exampleClosedReader "source" "src/a.sol" =
      .ok (⟨false, "File outside of allowed directories."⟩, exampleClosedReader) ∧
    readFile { exampleEnvironment with
        filesystem_exists := fun _ => .error ⟨false, ""⟩
        is_regular_file := fun _ => .error ⟨false, ""⟩
        readFileAsString := fun _ => .error ⟨false, ""⟩ }
      exampleClosedReader "source" "src/a.sol" =
      .ok (⟨false, "File outside of allowed directories."⟩, exampleClosedReader) :=
  ⟨rfl, readFile_empty_allowlist exampleEnvironment exampleClosedReader "src/a.sol"
    ⟨"/project/src/a.sol"⟩ (fun _ => .error ⟨false, ""⟩) (fun _ => .error ⟨false, ""⟩)
    (fun _ => .error ⟨false, ""⟩) rfl rfl⟩

end solidity
